import Mathlib

/-!
Verification of the compute.toys editor orchestration layer.

The development embeds, as Lean definitions, the parts of the repository
that the specified properties speak about:

* the Monaco diagnostics effect (the `parseError` `useEffect` in the editor
  component), embedded as the pure function `mapToMarkers`;
* the jotai atom initial values (`playAtom`, `resetAtom`, `hotReloadAtom`,
  `manualReloadAtom`, `parseErrorAtom`, `loadedTexturesAtom`,
  `entryPointsAtom`, `sliderRefMapAtom`), embedded as `...AtomInit`
  constants;
* the reload controller, code store revision counter and uniform-binding
  reconciliation, whose implementations are not part of the reviewed
  source tree (only the atom declarations are); these are modelled from
  the specification, as indicated by their doc comments.
-/

namespace ComputeToys

/-- Position inside the shader source, as carried by a parse error
(rows and columns are 1-based in Monaco; the compiler may report 0). -/
structure ErrPosition where
  row : Nat
  col : Nat
deriving DecidableEq

/-- ParseError, the diagnostic shape stored in `parseErrorAtom`:
`{ summary, position: {row, col}, success }`. -/
structure ParseError where
  summary : String
  position : ErrPosition
  success : Bool
deriving DecidableEq

/-- The slice of the Monaco text model interface used by the editor
component: `getLineCount()`, `getLineMaxColumn(line)` and
`getLineFirstNonWhitespaceColumn(line)`. -/
structure Document where
  lineCount : Nat
  lineMaxColumn : Nat → Nat
  lineFirstNonWhitespaceColumn : Nat → Nat

/-- Marker severity; the component only ever uses `MarkerSeverity.Error`. -/
inductive Severity where
  | error
deriving DecidableEq

/-- An editor marker descriptor, as passed to `setModelMarkers`. -/
structure Marker where
  startLineNumber : Nat
  startColumn : Nat
  endLineNumber : Nat
  endColumn : Nat
  message : String
  severity : Severity
deriving DecidableEq

/-- The single-line marker built in the in-range branch of the effect:
it spans `line` from its first non-whitespace column to its maximum
column. -/
def lineMarker (doc : Document) (line : Nat) (msg : String) : Marker :=
  { startLineNumber := line
    startColumn := doc.lineFirstNonWhitespaceColumn line
    endLineNumber := line
    endColumn := doc.lineMaxColumn line
    message := msg
    severity := Severity.error }

/-- The whole-document fallback marker built in the out-of-range branch:
line 1 column 1 through the last line's maximum column. -/
def wholeDocMarker (doc : Document) (msg : String) : Marker :=
  { startLineNumber := 1
    startColumn := 1
    endLineNumber := doc.lineCount
    endColumn := doc.lineMaxColumn doc.lineCount
    message := msg
    severity := Severity.error }

/-- Embedding of the `parseError` effect of the Monaco editor component:

```
let line = parseError.position.row;
if (parseError.success) { setModelMarkers(model, "owner", []); }
else if (0 < line && line < model.getLineCount()) {
  if (parseError.position.col == model.getLineMaxColumn(line)) { line += 1; }
  setModelMarkers(model, "owner", [{ line, firstNonWhitespaceColumn(line),
                                     line, lineMaxColumn(line), summary, Error }]);
} else {
  setModelMarkers(model, "owner", [{ 1, 1, lineCount, lineMaxColumn(lineCount),
                                     summary, Error }]);
}
```

The function returns the marker list passed to `setModelMarkers`. -/
def mapToMarkers (pe : ParseError) (doc : Document) : List Marker :=
  if pe.success then
    []
  else if 0 < pe.position.row ∧ pe.position.row < doc.lineCount then
    [lineMarker doc
      (if pe.position.col = doc.lineMaxColumn pe.position.row then
        pe.position.row + 1
      else
        pe.position.row)
      pe.summary]
  else
    [wholeDocMarker doc pe.summary]

/-- The corrected row, following the wording of the claims: the reported
row, advanced by one when `col` equals that row's maximum column.  A row
has a maximum column only when it is a row of the document (Monaco's
`getLineMaxColumn` is defined for rows `1 .. lineCount` and throws
otherwise), so the advance can only apply to such rows. -/
def specCorrectedRow (doc : Document) (pe : ParseError) : Nat :=
  if 1 ≤ pe.position.row ∧ pe.position.row ≤ doc.lineCount ∧
      pe.position.col = doc.lineMaxColumn pe.position.row then
    pe.position.row + 1
  else
    pe.position.row

/-! ### Atom initial values

The jotai atoms of the editor state, with their declared initial values:

```
export const codeAtom = atom<string>(DEFAULT_SHADER);
export const playAtom = atom<boolean>(true);
export const resetAtom = atom<boolean>(false);
export const hotReloadAtom = atom<boolean>(false);
export const manualReloadAtom = atom<boolean>(false);
export const parseErrorAtom = atom<ParseError>({
    summary: "", position: {row: 0, col: 0}, success: true });
export const loadedTexturesAtom = atom(["/textures/blank.png", "/textures/blank.png"]);
export const entryPointsAtom = atom([]);
export const sliderRefMapAtom = atom<Map<string, ...>>(new Map());
```
-/

/-- Initial value of `playAtom`. -/
def playAtomInit : Bool := true

/-- Initial value of `resetAtom`. -/
def resetAtomInit : Bool := false

/-- Initial value of `hotReloadAtom`. -/
def hotReloadAtomInit : Bool := false

/-- Initial value of `manualReloadAtom`. -/
def manualReloadAtomInit : Bool := false

/-- Initial value of `parseErrorAtom`. -/
def parseErrorAtomInit : ParseError :=
  { summary := "", position := { row := 0, col := 0 }, success := true }

/-- Initial value of `loadedTexturesAtom`. -/
def loadedTexturesAtomInit : List String :=
  ["/textures/blank.png", "/textures/blank.png"]

/-- Initial value of `entryPointsAtom` (its elements are entry point names). -/
def entryPointsAtomInit : List String := []

/-- Initial value of `sliderRefMapAtom`: an empty map from uniform name to
control handle; control handles are opaque and modelled as numbers. -/
def sliderRefMapAtomInit : List (String × Nat) := []

/-- Claim C5: for every diagnostic with `success = true`, regardless of the
document, `mapToMarkers` returns the empty marker set. -/
theorem mapToMarkers_success_empty (pe : ParseError) (doc : Document)
    (hs : pe.success = true) : mapToMarkers pe doc = [] := by
  simp [mapToMarkers, hs]

/-- Claim C5 witness: the initial no-error diagnostic on a concrete
one-line document produces no markers. -/
theorem mapToMarkers_success_empty_witness :
    (ParseError.mk "" (ErrPosition.mk 0 0) true).success = true ∧
      mapToMarkers (ParseError.mk "" (ErrPosition.mk 0 0) true)
        (Document.mk 1 (fun _ => 1) (fun _ => 1)) = [] :=
  ⟨rfl, mapToMarkers_success_empty _ _ rfl⟩

/-- Claim C9: for every diagnostic, `mapToMarkers` produces no marker when
`success` holds and exactly one marker otherwise — never two or more. -/
theorem mapToMarkers_markerCount (pe : ParseError) (doc : Document) :
    (mapToMarkers pe doc).length = if pe.success then 0 else 1 := by
  cases h : pe.success
  · simp only [mapToMarkers, h, Bool.false_eq_true, if_false]
    split <;> simp
  · simp [mapToMarkers, h]

/-- Claim C3 counterexample: on a 10-line document where every line has
maximum column 21 and first non-whitespace column 2, the failure
diagnostic `{row: 9, col: 21}` has corrected row 10, which lies outside
`[1, 10)`; yet `mapToMarkers` does not produce the whole-document
fallback marker (it places a single-line marker on line 10, because the
source checks the range of the reported row before applying the
end-of-line correction). -/
theorem mapToMarkers_correctedRowFallback_cex :
    (ParseError.mk "err" (ErrPosition.mk 9 21) false).success = false ∧
      specCorrectedRow (Document.mk 10 (fun _ => 21) (fun _ => 2))
        (ParseError.mk "err" (ErrPosition.mk 9 21) false) = 10 ∧
      ¬(1 ≤ (10 : Nat) ∧ (10 : Nat) < 10) ∧
      mapToMarkers (ParseError.mk "err" (ErrPosition.mk 9 21) false)
          (Document.mk 10 (fun _ => 21) (fun _ => 2)) ≠
        [wholeDocMarker (Document.mk 10 (fun _ => 21) (fun _ => 2)) "err"] := by
  refine ⟨rfl, by decide, by decide, ?_⟩
  decide

/-- Claim C3 amended: for every failure diagnostic whose *reported* row
lies outside `(0, documentLineCount)`, `mapToMarkers` produces exactly
one fallback marker spanning the entire document (line 1 column 1
through the last line's maximum column) carrying the diagnostic's
summary.  The in-range test precedes the end-of-line correction, so it
is the reported row, not the corrected row, that selects the fallback.
In particular, for a 10-line document and diagnostic
`{row: 10, col: lineMaxColumn 10}`, the reported row 10 is out of range
and the whole-document fallback marker is produced. -/
theorem mapToMarkers_reportedRowFallback (pe : ParseError) (doc : Document)
    (hs : pe.success = false)
    (hr : ¬(0 < pe.position.row ∧ pe.position.row < doc.lineCount)) :
    mapToMarkers pe doc = [wholeDocMarker doc pe.summary] := by
  simp [mapToMarkers, hs, hr]

/-- Claim C3 amended witness: the spec's own example, a 10-line document
and the failure diagnostic `{row: 10, col: lineMaxColumn 10}`, produces
the whole-document fallback marker. -/
theorem mapToMarkers_reportedRowFallback_witness :
    (ParseError.mk "err" (ErrPosition.mk 10 21) false).success = false ∧
      ¬(0 < (10 : Nat) ∧ (10 : Nat) <
          (Document.mk 10 (fun _ => 21) (fun _ => 2)).lineCount) ∧
      mapToMarkers (ParseError.mk "err" (ErrPosition.mk 10 21) false)
          (Document.mk 10 (fun _ => 21) (fun _ => 2)) =
        [wholeDocMarker (Document.mk 10 (fun _ => 21) (fun _ => 2)) "err"] :=
  ⟨rfl, by decide,
    mapToMarkers_reportedRowFallback _ _ rfl (by decide)⟩

/-- Claim C4 counterexample: on the same 10-line document, the failure
diagnostic `{row: 9, col: 21}` has `col` equal to row 9's maximum
column, and the corrected row `9 + 1 = 10` is out of range `[1, 10)`,
so a range decision made on the corrected row would have to produce the
out-of-range (whole-document) marker; but `mapToMarkers` produces a
single-line marker instead — the range decision is made on the reported
row before the correction. -/
theorem mapToMarkers_decisionOnCorrectedRow_cex :
    (ParseError.mk "err" (ErrPosition.mk 9 21) false).success = false ∧
      (ParseError.mk "err" (ErrPosition.mk 9 21) false).position.col =
        (Document.mk 10 (fun _ => 21) (fun _ => 2)).lineMaxColumn 9 ∧
      ¬(0 < (9 : Nat) + 1 ∧ (9 : Nat) + 1 <
          (Document.mk 10 (fun _ => 21) (fun _ => 2)).lineCount) ∧
      mapToMarkers (ParseError.mk "err" (ErrPosition.mk 9 21) false)
          (Document.mk 10 (fun _ => 21) (fun _ => 2)) ≠
        [wholeDocMarker (Document.mk 10 (fun _ => 21) (fun _ => 2)) "err"] := by
  refine ⟨rfl, by decide, by decide, ?_⟩
  decide

/-- Claim C4 amended: for every failure diagnostic whose reported row is
within `(0, documentLineCount)` and whose `col` equals the maximum
column of the reported row, `mapToMarkers` advances the marker row to
`row + 1` before placing the marker (the end-of-line off-by-one
correction); the in-range/out-of-range decision is made on the reported
row, before the correction. -/
theorem mapToMarkers_endOfLineAdvance (pe : ParseError) (doc : Document)
    (hs : pe.success = false)
    (h1 : 0 < pe.position.row) (h2 : pe.position.row < doc.lineCount)
    (hc : pe.position.col = doc.lineMaxColumn pe.position.row) :
    mapToMarkers pe doc = [lineMarker doc (pe.position.row + 1) pe.summary] := by
  simp [mapToMarkers, hs, h1, h2, hc]

/-- Claim C4 amended witness: on a 10-line document, the failure
diagnostic `{row: 5, col: lineMaxColumn 5}` yields a marker on row 6. -/
theorem mapToMarkers_endOfLineAdvance_witness :
    (ParseError.mk "eol" (ErrPosition.mk 5 21) false).success = false ∧
      0 < (5 : Nat) ∧
      (5 : Nat) < (Document.mk 10 (fun _ => 21) (fun _ => 2)).lineCount ∧
      (ParseError.mk "eol" (ErrPosition.mk 5 21) false).position.col =
        (Document.mk 10 (fun _ => 21) (fun _ => 2)).lineMaxColumn 5 ∧
      mapToMarkers (ParseError.mk "eol" (ErrPosition.mk 5 21) false)
          (Document.mk 10 (fun _ => 21) (fun _ => 2)) =
        [lineMarker (Document.mk 10 (fun _ => 21) (fun _ => 2)) 6 "eol"] :=
  ⟨rfl, by decide, by decide, by decide,
    mapToMarkers_endOfLineAdvance _ _ rfl (by decide) (by decide) (by decide)⟩

/-- Claim C6: for every failure diagnostic whose corrected row lies within
`[1, documentLineCount)`, `mapToMarkers` produces a single marker on the
corrected row spanning from that row's first non-whitespace column to
its maximum column, carrying the diagnostic's summary with severity
error. -/
theorem mapToMarkers_inRangeMarker (pe : ParseError) (doc : Document)
    (hs : pe.success = false)
    (h1 : 1 ≤ specCorrectedRow doc pe)
    (h2 : specCorrectedRow doc pe < doc.lineCount) :
    mapToMarkers pe doc = [lineMarker doc (specCorrectedRow doc pe) pe.summary] := by
  have hsne : ¬(pe.success = true) := by simp [hs]
  unfold specCorrectedRow at h1 h2 ⊢
  by_cases hb : 1 ≤ pe.position.row ∧ pe.position.row ≤ doc.lineCount ∧
      pe.position.col = doc.lineMaxColumn pe.position.row
  · rw [if_pos hb] at h2 ⊢
    have hrow : pe.position.row < doc.lineCount :=
      Nat.lt_of_succ_lt h2
    unfold mapToMarkers
    rw [if_neg hsne, if_pos ⟨hb.1, hrow⟩, if_pos hb.2.2]
  · rw [if_neg hb] at h1 h2 ⊢
    have hc : pe.position.col ≠ doc.lineMaxColumn pe.position.row := by
      intro hcc
      exact hb ⟨h1, Nat.le_of_lt h2, hcc⟩
    unfold mapToMarkers
    rw [if_neg hsne, if_pos ⟨h1, h2⟩, if_neg hc]

/-- Claim C6 witness: the spec's own example, a 10-line document whose
row 5 has first non-whitespace column 2, and the failure diagnostic
`{row: 5, col: 3}`: the corrected row is 5 and the marker spans row 5
from column 2 to its maximum column 21. -/
theorem mapToMarkers_inRangeMarker_witness :
    (ParseError.mk "oops" (ErrPosition.mk 5 3) false).success = false ∧
      1 ≤ specCorrectedRow (Document.mk 10 (fun _ => 21) (fun _ => 2))
        (ParseError.mk "oops" (ErrPosition.mk 5 3) false) ∧
      specCorrectedRow (Document.mk 10 (fun _ => 21) (fun _ => 2))
          (ParseError.mk "oops" (ErrPosition.mk 5 3) false) <
        (Document.mk 10 (fun _ => 21) (fun _ => 2)).lineCount ∧
      mapToMarkers (ParseError.mk "oops" (ErrPosition.mk 5 3) false)
          (Document.mk 10 (fun _ => 21) (fun _ => 2)) =
        [Marker.mk 5 2 5 21 "oops" Severity.error] := by
  refine ⟨rfl, by decide, by decide, ?_⟩
  have h := mapToMarkers_inRangeMarker
    (ParseError.mk "oops" (ErrPosition.mk 5 3) false)
    (Document.mk 10 (fun _ => 21) (fun _ => 2)) rfl (by decide) (by decide)
  simpa [lineMarker, specCorrectedRow] using h

/-! ### CodeStore -/

/-- Modelled from the spec: the repository's reviewed source declares only
`codeAtom = atom<string>(DEFAULT_SHADER)`; the revision counter attached
to the source text is not under the reviewed tree.  Per §3/§4.1 of the
spec, CodeStore holds the current text together with a monotonically
increasing revision counter. -/
structure CodeStore where
  text : String
  revision : Nat
deriving DecidableEq

/-- Modelled from the spec: `setText(text)` records new text and
increments revision. -/
def setText (s : CodeStore) (t : String) : CodeStore :=
  { text := t, revision := s.revision + 1 }

/-- Modelled from the spec: `snapshot()` returns `(text, revision)` as one
pair. -/
def snapshot (s : CodeStore) : String × Nat :=
  (s.text, s.revision)

/-- An operation on the code store: an edit (`setText`) or a read-only
`snapshot`. -/
inductive CodeStoreOp where
  | set (t : String)
  | snap
deriving DecidableEq

/-- Apply one operation to the code store; `snapshot` does not change it. -/
def applyOp (s : CodeStore) : CodeStoreOp → CodeStore
  | CodeStoreOp.set t => setText s t
  | CodeStoreOp.snap => s

/-- Apply a sequence of operations to the code store. -/
def applyOps (s : CodeStore) (ops : List CodeStoreOp) : CodeStore :=
  ops.foldl applyOp s

theorem revision_le_applyOps (ops : List CodeStoreOp) (s : CodeStore) :
    s.revision ≤ (applyOps s ops).revision := by
  induction ops generalizing s with
  | nil => exact Nat.le_refl _
  | cons op ops ih =>
      have hstep : s.revision ≤ (applyOp s op).revision := by
        cases op with
        | set t => exact Nat.le_succ _
        | snap => exact Nat.le_refl _
      exact Nat.le_trans hstep (ih (applyOp s op))

/-- Claim C7: every `setText` increments the revision by exactly one, the
revision never decreases over any sequence of operations, and
`snapshot` returns the text and revision as a pair. -/
theorem codeStore_revision_contract (s : CodeStore) (t : String)
    (ops : List CodeStoreOp) :
    (setText s t).revision = s.revision + 1 ∧
      s.revision ≤ (applyOps s ops).revision ∧
      snapshot s = (s.text, s.revision) :=
  ⟨rfl, revision_le_applyOps ops s, rfl⟩

/-! ### Uniform binding reconciliation -/

/-- A uniform declaration reported by a successful compile:
`{ name, defaultValue, range }` (§3 of the spec). -/
structure UniformDecl where
  name : String
  defaultValue : Int
  rangeLo : Int
  rangeHi : Int
deriving DecidableEq

/-- Look up a uniform name in the binding registry (a list of
name/control-handle associations). -/
def lookupName : List (String × Nat) → String → Option Nat
  | [], _ => none
  | (k, v) :: rest, n => if k = n then some v else lookupName rest n

/-- Modelled from the spec: the reconciliation of UniformBindingRegistry
against the uniform declarations of a successful compile (§4.3); the
implementation (the uniform slider component) is not under the reviewed
tree.  For each declared name present in the registry, the existing
control handle is kept; for each declared name absent from the
registry, a freshly requested control handle is associated; names
absent from the declarations are dropped.  `fresh` is the next unused
handle identifier; the updated value is returned alongside the new
registry. -/
def reconcile (old : List (String × Nat)) :
    List UniformDecl → Nat → List (String × Nat) × Nat
  | [], fresh => ([], fresh)
  | d :: rest, fresh =>
      match lookupName old d.name with
      | some h =>
          let p := reconcile old rest fresh
          ((d.name, h) :: p.1, p.2)
      | none =>
          let p := reconcile old rest (fresh + 1)
          ((d.name, fresh) :: p.1, p.2)

theorem reconcile_keeps (old : List (String × Nat))
    (decls : List UniformDecl) (fresh : Nat) (n : String) (h : Nat)
    (hn : n ∈ decls.map UniformDecl.name) (hh : lookupName old n = some h) :
    lookupName (reconcile old decls fresh).1 n = some h := by
  induction decls generalizing fresh with
  | nil => simp at hn
  | cons d rest ih =>
      simp only [List.map_cons, List.mem_cons] at hn
      unfold reconcile
      cases hl : lookupName old d.name with
      | some h0 =>
          simp only [lookupName]
          by_cases hdn : d.name = n
          · subst hdn
            rw [hl] at hh
            rw [if_pos rfl]
            exact hh
          · rw [if_neg hdn]
            rcases hn with hn | hn
            · exact absurd hn.symm hdn
            · exact ih fresh hn
      | none =>
          simp only [lookupName]
          by_cases hdn : d.name = n
          · subst hdn
            rw [hl] at hh
            exact absurd hh (by simp)
          · rw [if_neg hdn]
            rcases hn with hn | hn
            · exact absurd hn.symm hdn
            · exact ih (fresh + 1) hn

theorem reconcile_removes (old : List (String × Nat))
    (decls : List UniformDecl) (fresh : Nat) (n : String)
    (hn : n ∉ decls.map UniformDecl.name) :
    lookupName (reconcile old decls fresh).1 n = none := by
  induction decls generalizing fresh with
  | nil => rfl
  | cons d rest ih =>
      simp only [List.map_cons, List.mem_cons, not_or] at hn
      unfold reconcile
      cases hl : lookupName old d.name with
      | some h0 =>
          simp only [lookupName]
          rw [if_neg (fun hdn => hn.1 hdn.symm)]
          exact ih fresh (fun hmem => hn.2 hmem)
      | none =>
          simp only [lookupName]
          rw [if_neg (fun hdn => hn.1 hdn.symm)]
          exact ih (fresh + 1) (fun hmem => hn.2 hmem)

theorem reconcile_creates (old : List (String × Nat))
    (decls : List UniformDecl) (fresh : Nat) (n : String)
    (hn : n ∈ decls.map UniformDecl.name) :
    ∃ h, lookupName (reconcile old decls fresh).1 n = some h := by
  induction decls generalizing fresh with
  | nil => simp at hn
  | cons d rest ih =>
      simp only [List.map_cons, List.mem_cons] at hn
      unfold reconcile
      cases hl : lookupName old d.name with
      | some h0 =>
          simp only [lookupName]
          by_cases hdn : d.name = n
          · rw [if_pos hdn]
            exact ⟨h0, rfl⟩
          · rw [if_neg hdn]
            rcases hn with hn | hn
            · exact absurd hn.symm hdn
            · exact ih fresh hn
      | none =>
          simp only [lookupName]
          by_cases hdn : d.name = n
          · rw [if_pos hdn]
            exact ⟨fresh, rfl⟩
          · rw [if_neg hdn]
            rcases hn with hn | hn
            · exact absurd hn.symm hdn
            · exact ih (fresh + 1) hn

/-- Claim C8: reconciling the uniform binding registry against the new
uniform declarations keeps the existing control handle of every name
present in both the old registry and the new declarations, removes the
association of every name absent from the new declarations, and creates
an association for every name present only in the new declarations. -/
theorem reconcile_contract (old : List (String × Nat))
    (decls : List UniformDecl) (fresh : Nat) :
    (∀ n h, n ∈ decls.map UniformDecl.name → lookupName old n = some h →
        lookupName (reconcile old decls fresh).1 n = some h) ∧
      (∀ n, n ∉ decls.map UniformDecl.name →
        lookupName (reconcile old decls fresh).1 n = none) ∧
      (∀ n, n ∈ decls.map UniformDecl.name →
        ∃ h, lookupName (reconcile old decls fresh).1 n = some h) :=
  ⟨fun n h hn hh => reconcile_keeps old decls fresh n h hn hh,
    fun n hn => reconcile_removes old decls fresh n hn,
    fun n hn => reconcile_creates old decls fresh n hn⟩

/-- Claim C8 witness: reconciling `{a ↦ 0, b ↦ 1}` against declarations
`{b, c}` keeps `b`'s handle 1, drops `a`'s association, and creates an
association for `c`. -/
theorem reconcile_contract_witness :
    lookupName (reconcile [("a", 0), ("b", 1)]
        [UniformDecl.mk "b" 0 0 1, UniformDecl.mk "c" 0 0 1] 2).1 "b" = some 1 ∧
      lookupName (reconcile [("a", 0), ("b", 1)]
        [UniformDecl.mk "b" 0 0 1, UniformDecl.mk "c" 0 0 1] 2).1 "a" = none ∧
      (∃ h, lookupName (reconcile [("a", 0), ("b", 1)]
        [UniformDecl.mk "b" 0 0 1, UniformDecl.mk "c" 0 0 1] 2).1 "c" = some h) :=
  ⟨(reconcile_contract [("a", 0), ("b", 1)]
        [UniformDecl.mk "b" 0 0 1, UniformDecl.mk "c" 0 0 1] 2).1 "b" 1
      (by decide) (by decide),
    (reconcile_contract [("a", 0), ("b", 1)]
        [UniformDecl.mk "b" 0 0 1, UniformDecl.mk "c" 0 0 1] 2).2.1 "a"
      (by decide),
    (reconcile_contract [("a", 0), ("b", 1)]
        [UniformDecl.mk "b" 0 0 1, UniformDecl.mk "c" 0 0 1] 2).2.2 "c"
      (by decide)⟩

/-! ### ReloadController -/

/-- The result of a compile: either entry points plus uniform
declarations, or a failure diagnostic (§3 of the spec). -/
inductive CompileResult where
  | success (entryPoints : List String) (uniforms : List UniformDecl)
  | failure (diagnostic : ParseError)
deriving DecidableEq

/-- A compile response delivered asynchronously by the CompileGateway,
tagged with the revision of the request it answers. -/
structure CompileResponse where
  revision : Nat
  result : CompileResult
deriving DecidableEq

/-- Modelled from the spec: the state owned by the reload controller and
the registries it mutates (§4.4); the controller implementation is not
under the reviewed tree.  `codeRevision` is the CodeStore revision,
`submittedRevision` the revision carried by the latest submitted
compile request, and `nextHandle` the next unused control handle
identifier used when reconciliation requests new controls. -/
structure SystemState where
  codeRevision : Nat
  submittedRevision : Nat
  play : Bool
  reset : Bool
  hotReload : Bool
  manualReload : Bool
  entryPoints : List String
  sliderRefMap : List (String × Nat)
  loadedTextures : List String
  parseError : ParseError
  nextHandle : Nat

/-- An event observed by the reload controller: an edit of the source, a
flag change, a manual reload request, or the asynchronous completion of
a compile. -/
inductive Event where
  | edit
  | setPlay (b : Bool)
  | setReset (b : Bool)
  | setHotReload (b : Bool)
  | manualReload
  | complete (resp : CompileResponse)

/-- Modelled from the spec: the reload controller transition function
(§4.4).  An edit bumps the code revision and, with hot reload on,
submits a compile request carrying the latest revision; a manual reload
submits regardless of hot reload and clears its flag; a compile
completion is applied only when its revision matches the latest
submitted revision — on success the entry points are replaced, the
uniform bindings reconciled and the stored diagnostic cleared, on
failure only the stored diagnostic changes; a stale completion is
discarded. -/
def step (s : SystemState) : Event → SystemState
  | Event.edit =>
      let s1 := { s with codeRevision := s.codeRevision + 1 }
      if s1.hotReload then
        { s1 with submittedRevision := s1.codeRevision }
      else
        s1
  | Event.setPlay b => { s with play := b }
  | Event.setReset b => { s with reset := b }
  | Event.setHotReload b => { s with hotReload := b }
  | Event.manualReload =>
      { s with submittedRevision := s.codeRevision, manualReload := false }
  | Event.complete r =>
      if r.revision = s.submittedRevision then
        match r.result with
        | CompileResult.success eps unis =>
            { s with
                entryPoints := eps
                sliderRefMap := (reconcile s.sliderRefMap unis s.nextHandle).1
                nextHandle := (reconcile s.sliderRefMap unis s.nextHandle).2
                parseError := parseErrorAtomInit }
        | CompileResult.failure d => { s with parseError := d }
      else
        s

/-- The initial system state, before any compile has completed, assembled
from the atom initial values. -/
def initState : SystemState :=
  { codeRevision := 0
    submittedRevision := 0
    play := playAtomInit
    reset := resetAtomInit
    hotReload := hotReloadAtomInit
    manualReload := manualReloadAtomInit
    entryPoints := entryPointsAtomInit
    sliderRefMap := sliderRefMapAtomInit
    loadedTextures := loadedTexturesAtomInit
    parseError := parseErrorAtomInit
    nextHandle := 0 }

/-- Run the controller on a sequence of events. -/
def runEvents (s : SystemState) (evs : List Event) : SystemState :=
  evs.foldl step s

/-- Claim C1: for every sequence of edits and asynchronous compile
completions, a compile result whose revision does not match the latest
submitted revision is discarded: it mutates neither the entry point
registry nor the uniform binding registry.  Only the result matching
the latest submitted revision can mutate them. -/
theorem staleResultLeavesRegistriesUnchanged (evs : List Event)
    (r : CompileResponse)
    (h : r.revision ≠ (runEvents initState evs).submittedRevision) :
    (step (runEvents initState evs) (Event.complete r)).entryPoints =
        (runEvents initState evs).entryPoints ∧
      (step (runEvents initState evs) (Event.complete r)).sliderRefMap =
        (runEvents initState evs).sliderRefMap := by
  have hstep : step (runEvents initState evs) (Event.complete r) =
      runEvents initState evs := by
    simp only [step]
    rw [if_neg h]
  rw [hstep]
  exact ⟨rfl, rfl⟩

/-- Claim C1 witness: after switching hot reload on and editing once, the
latest submitted revision is 1; a successful result for the stale
revision 0 leaves both registries unchanged. -/
theorem staleResultLeavesRegistriesUnchanged_witness :
    (CompileResponse.mk 0 (CompileResult.success ["main_image"] [])).revision ≠
        (runEvents initState [Event.setHotReload true, Event.edit]).submittedRevision ∧
      ((step (runEvents initState [Event.setHotReload true, Event.edit])
            (Event.complete
              (CompileResponse.mk 0 (CompileResult.success ["main_image"] [])))).entryPoints =
          (runEvents initState [Event.setHotReload true, Event.edit]).entryPoints ∧
        (step (runEvents initState [Event.setHotReload true, Event.edit])
            (Event.complete
              (CompileResponse.mk 0 (CompileResult.success ["main_image"] [])))).sliderRefMap =
          (runEvents initState [Event.setHotReload true, Event.edit]).sliderRefMap) :=
  ⟨by decide, staleResultLeavesRegistriesUnchanged _ _ (by decide)⟩

/-- Claim C2: processing a Failure compile result — stale or current —
leaves the entry point registry, the uniform binding registry and the
texture slot registry exactly as they were: only the stored diagnostic
may change. -/
theorem failureLeavesRegistriesUnchanged (s : SystemState) (rev : Nat)
    (d : ParseError) :
    (step s (Event.complete
        (CompileResponse.mk rev (CompileResult.failure d)))).entryPoints =
        s.entryPoints ∧
      (step s (Event.complete
        (CompileResponse.mk rev (CompileResult.failure d)))).sliderRefMap =
        s.sliderRefMap ∧
      (step s (Event.complete
        (CompileResponse.mk rev (CompileResult.failure d)))).loadedTextures =
        s.loadedTextures := by
  simp only [step]
  split
  · exact ⟨rfl, rfl, rfl⟩
  · exact ⟨rfl, rfl, rfl⟩

/-- Claim C10: at initialization, before any compile has completed, the
runtime flags are playing with no reset, hot reload off and no manual
reload pending; the stored diagnostic is the no-error diagnostic with
empty summary at `{row: 0, col: 0}`; the entry point list is empty; and
the texture registry holds exactly two slots, both bound to
`/textures/blank.png`. -/
theorem initialState_values :
    initState.play = true ∧
      initState.reset = false ∧
      initState.hotReload = false ∧
      initState.manualReload = false ∧
      initState.parseError =
        ParseError.mk "" (ErrPosition.mk 0 0) true ∧
      initState.entryPoints = [] ∧
      initState.loadedTextures = ["/textures/blank.png", "/textures/blank.png"] ∧
      initState.loadedTextures.length = 2 :=
  ⟨rfl, rfl, rfl, rfl, rfl, rfl, rfl, rfl⟩

end ComputeToys
